import Mathlib

/-!
Shallow embedding of the ink! `delegator` and `adder` contracts
(`src/my_contracts/delegator/lib.rs`, `src/my_contracts/delegator/adder/lib.rs`).

Remote calls are made explicit: every contract message returns, next to its
ordinary result, the list of `Dispatch` records it handed to the environment
via `build_call(...).try_invoke()`.  The environment's response is modelled by
an `Invoker` function; its result is bound (as `_result` in the source) but
never inspected, mirroring the fire-and-forget `try_invoke` usage.
-/

namespace Ink

/-- `AccountId`: opaque addresses compared by value. -/
abbrev AccountId := Nat

/-- The flags of `ink::env::CallFlags`; `CallFlags::default()` clears all of them. -/
structure CallFlags where
  forward_input : Bool
  clone_input : Bool
  tail_call : Bool
  allow_reentry : Bool
deriving DecidableEq

def CallFlags.default : CallFlags :=
  { forward_input := false, clone_input := false, tail_call := false, allow_reentry := false }

/-- Two's-complement value of an `i32` as an unsigned 32-bit number. -/
def toU32 (x : Int) : Nat := (x % 4294967296).toNat

/-- Modelled from the spec: the SCALE fixed-width encoding of an `i32`
performed by `ExecutionInput::push_arg` (the codec crate is not under src/) is
the four little-endian bytes of the two's-complement representation. -/
def encode_i32 (x : Int) : List Nat :=
  [toU32 x % 256, toU32 x / 256 % 256, toU32 x / 65536 % 256, toU32 x / 16777216 % 256]

/-- `ink::env::call::ExecutionInput`: a 4-byte selector followed by the
SCALE-encoded arguments in declared order. -/
structure ExecutionInput where
  selector : List Nat
  args : List Nat
deriving DecidableEq

def ExecutionInput.new (sel : List Nat) : ExecutionInput :=
  { selector := sel, args := [] }

def ExecutionInput.push_arg (e : ExecutionInput) (x : Int) : ExecutionInput :=
  { e with args := e.args ++ encode_i32 x }

/-- The wire payload of an execution input: selector bytes then argument bytes. -/
def ExecutionInput.payload (e : ExecutionInput) : List Nat :=
  e.selector ++ e.args

/-- One call handed to the environment by `build_call(...).try_invoke()`. -/
structure Dispatch where
  target : AccountId
  flags : CallFlags
  payload : List Nat
deriving DecidableEq

/-- The single error kind surfaced by the remote-call boundary. -/
inductive RemoteCallError
  | err
deriving DecidableEq

/-- The environment's remote invoker: maps each dispatched call to its outcome. -/
abbrev Invoker := Dispatch → Except RemoteCallError Unit

/-- An invoker that reports failure on every attempt. -/
def alwaysFail : Invoker := fun _ => Except.error RemoteCallError.err

/-- Storage of the `Adder` contract: the accumulator's address. -/
structure Adder where
  acc_contract : AccountId
deriving DecidableEq

/-- `Adder::new`: stores the given accumulator address. -/
def Adder.new (acc_contract : AccountId) : Adder :=
  { acc_contract := acc_contract }

/-- The selector declared on `Adder::inc` by `#[ink(message, selector = 0xC0DECAFE)]`. -/
def Adder.inc_selector : Nat := 0xC0DECAFE

/-- `Adder::inc`: builds a call to the stored accumulator address with selector
bytes `[0xC0, 0xDE, 0xCA, 0xFE]` and the encoded argument, default call flags,
and captures the `try_invoke` result without inspecting it.  The receiver is
`&mut self`; the (unchanged) storage is returned next to the emitted call. -/
def Adder.inc (self : Adder) (by_ : Int) (invoker : Invoker) : Adder × List Dispatch :=
  let method_selector : List Nat := [0xC0, 0xDE, 0xCA, 0xFE]
  let d : Dispatch :=
    { target := self.acc_contract
      flags := CallFlags.default
      payload := ((ExecutionInput.new method_selector).push_arg by_).payload }
  let _result : Except RemoteCallError Unit := invoker d
  (self, [d])

/-- The `Which` state of the `delegator` contract. -/
inductive Which
  | Adder
  | Subber
deriving DecidableEq

/-- Storage of the `Delegator` contract. -/
structure Delegator where
  which : Which
  acc_contract : AccountId
  add_contract : AccountId
  sub_contract : AccountId
deriving DecidableEq

/-- `Delegator::new`: stores the three addresses and starts in the `Adder` state. -/
def Delegator.new (acc_contract add_contract sub_contract : AccountId) : Delegator :=
  { which := Which.Adder
    acc_contract := acc_contract
    add_contract := add_contract
    sub_contract := sub_contract }

/-- `Delegator::get`: builds a call to the accumulator with selector
`[0xC0, 0xDE, 0xCA, 0xF1]`, no arguments, default flags; the `try_invoke`
result is bound but never inspected, and nothing is returned to the caller. -/
def Delegator.get (self : Delegator) (invoker : Invoker) : Unit × List Dispatch :=
  let method_selector : List Nat := [0xC0, 0xDE, 0xCA, 0xF1]
  let d : Dispatch :=
    { target := self.acc_contract
      flags := CallFlags.default
      payload := (ExecutionInput.new method_selector).payload }
  let _result : Except RemoteCallError Unit := invoker d
  ((), d :: [])

/-- `Delegator::change`: selects the target from `which`, then builds a call
with selector `[0xC0, 0xDE, 0xCA, 0xFE]` and the encoded argument, default
flags; the `try_invoke` result is bound but never inspected. -/
def Delegator.change (self : Delegator) (by_ : Int) (invoker : Invoker) :
    Unit × List Dispatch :=
  let method_selector : List Nat := [0xC0, 0xDE, 0xCA, 0xFE]
  let contract : AccountId :=
    match self.which with
    | Which.Adder => self.add_contract
    | Which.Subber => self.sub_contract
  let d : Dispatch :=
    { target := contract
      flags := CallFlags.default
      payload := ((ExecutionInput.new method_selector).push_arg by_).payload }
  let _result : Except RemoteCallError Unit := invoker d
  ((), d :: [])

/-- `Delegator::switch`: toggles `which`; the body performs no call, so the
emitted dispatch list is empty. -/
def Delegator.switch (self : Delegator) : Delegator × List Dispatch :=
  match self.which with
  | Which.Adder => ({ self with which := Which.Subber }, [])
  | Which.Subber => ({ self with which := Which.Adder }, [])

/-- The message surface of `Delegator` reachable after construction. -/
inductive Op
  | get
  | change (x : Int)
  | switch
deriving DecidableEq

/-- One message execution against a `Delegator` instance.  `get` and `change`
take `&self` in the source, so the storage they return is the one they were
given; `switch` takes `&mut self` and is the only mutating message. -/
def Delegator.step (self : Delegator) (op : Op) (invoker : Invoker) :
    Delegator × List Dispatch :=
  match op with
  | Op.get => (self, (self.get invoker).2)
  | Op.change x => (self, (self.change x invoker).2)
  | Op.switch => self.switch

/-- Runs a sequence of messages, threading the storage. -/
def Delegator.run (self : Delegator) (ops : List Op) (invoker : Invoker) : Delegator :=
  ops.foldl (fun s op => (s.step op invoker).1) self

/-- Big-endian bytes of a 4-byte selector literal such as `0xC0DECAFE`. -/
def selectorBytes (n : Nat) : List Nat :=
  [n / 16777216 % 256, n / 65536 % 256, n / 256 % 256, n % 256]

/-- SCALE decoding of an `i32` from exactly four little-endian bytes. -/
def decode_i32 (bs : List Nat) : Option Int :=
  match bs with
  | [b0, b1, b2, b3] =>
    some (if b0 + 256 * b1 + 65536 * b2 + 16777216 * b3 < 2147483648
          then ((b0 + 256 * b1 + 65536 * b2 + 16777216 * b3 : Nat) : Int)
          else ((b0 + 256 * b1 + 65536 * b2 + 16777216 * b3 : Nat) : Int) - 4294967296)
  | _ => none

/-- Modelled from the spec: the message dispatcher that ink! generates for the
`Adder` contract (not under src/) routes an incoming payload to the message
whose declared 4-byte selector equals the payload's first four bytes; `Adder`
exposes the single message `inc`, whose `i32` argument is decoded from the
remaining bytes. -/
def Adder.handleCall (self : Adder) (payload : List Nat) (invoker : Invoker) :
    Option (Adder × List Dispatch) :=
  if payload.take 4 = selectorBytes Adder.inc_selector then
    match decode_i32 (payload.drop 4) with
    | some x => some (self.inc x invoker)
    | none => none
  else none

/-- Decoding inverts encoding on the `i32` range. -/
theorem decode_encode_i32 (x : Int) (h1 : -2147483648 ≤ x) (h2 : x < 2147483648) :
    decode_i32 (encode_i32 x) = some x := by
  have hx0 : (0 : Int) ≤ x % 4294967296 := Int.emod_nonneg x (by norm_num)
  have hn : ((toU32 x : Nat) : Int) = x % 4294967296 := Int.toNat_of_nonneg hx0
  have hlt : x % 4294967296 < 4294967296 :=
    Int.emod_lt_of_pos x (by norm_num)
  have hnlt : toU32 x < 4294967296 := by omega
  simp only [encode_i32, decode_i32]
  have hsum : toU32 x % 256 + 256 * (toU32 x / 256 % 256) +
      65536 * (toU32 x / 65536 % 256) + 16777216 * (toU32 x / 16777216 % 256) = toU32 x := by
    omega
  rw [hsum]
  congr 1
  split <;> omega

theorem step_preserves_addresses (s : Delegator) (op : Op) (inv : Invoker) :
    (s.step op inv).1.acc_contract = s.acc_contract ∧
    (s.step op inv).1.add_contract = s.add_contract ∧
    (s.step op inv).1.sub_contract = s.sub_contract := by
  cases op with
  | get => exact ⟨rfl, rfl, rfl⟩
  | change x => exact ⟨rfl, rfl, rfl⟩
  | switch =>
    obtain ⟨w, a, b, c⟩ := s
    cases w <;> exact ⟨rfl, rfl, rfl⟩

theorem step_nonswitch (s : Delegator) (op : Op) (inv : Invoker) (h : op ≠ Op.switch) :
    (s.step op inv).1 = s := by
  cases op with
  | get => rfl
  | change x => rfl
  | switch => exact absurd rfl h

theorem run_preserves_addresses (s : Delegator) (ops : List Op) (inv : Invoker) :
    (s.run ops inv).acc_contract = s.acc_contract ∧
    (s.run ops inv).add_contract = s.add_contract ∧
    (s.run ops inv).sub_contract = s.sub_contract := by
  induction ops generalizing s with
  | nil => exact ⟨rfl, rfl, rfl⟩
  | cons op rest ih =>
    obtain ⟨h1, h2, h3⟩ := step_preserves_addresses s op inv
    obtain ⟨g1, g2, g3⟩ := ih (s.step op inv).1
    exact ⟨g1.trans h1, g2.trans h2, g3.trans h3⟩

theorem run_which_no_switch (s : Delegator) (ops : List Op) (inv : Invoker) :
    Op.switch ∉ ops → (s.run ops inv).which = s.which := by
  induction ops generalizing s with
  | nil => intro _; rfl
  | cons op rest ih =>
    intro h
    rw [List.mem_cons, not_or] at h
    have hs : (s.step op inv).1 = s := step_nonswitch s op inv (fun he => h.1 he.symm)
    have hrun : s.run (op :: rest) inv = (s.step op inv).1.run rest inv := rfl
    rw [hrun, hs]
    exact ih s h.2

/-- Claim C1: in state `Adder`, `change(x)` dispatches to the stored adder
address, and in state `Subber` to the stored subber address, in both cases
with payload `0xC0, 0xDE, 0xCA, 0xFE` followed by the encoding of `x`. -/
theorem change_dispatch (s : Delegator) (x : Int) (inv : Invoker) :
    (s.change x inv).2 =
      [{ target := (match s.which with
                    | Which.Adder => s.add_contract
                    | Which.Subber => s.sub_contract)
         flags := CallFlags.default
         payload := [0xC0, 0xDE, 0xCA, 0xFE] ++ encode_i32 x }] := by
  obtain ⟨w, a, b, c⟩ := s
  cases w <;> rfl

/-- Claim C2: against an invoker that reports failure on every attempt,
`Adder.inc 5`, `Delegator.change 5` and `Delegator.get` all complete normally,
returning their ordinary results; the remote outcome is never inspected or
propagated. -/
theorem remote_failure_not_propagated (a : Adder) (s : Delegator) (inv : Invoker)
    (hfail : ∀ d, ∃ e, inv d = Except.error e) :
    a.inc 5 inv =
      (a, [{ target := a.acc_contract
             flags := CallFlags.default
             payload := [0xC0, 0xDE, 0xCA, 0xFE] ++ encode_i32 5 }]) ∧
    s.change 5 inv =
      ((), [{ target := (match s.which with
                         | Which.Adder => s.add_contract
                         | Which.Subber => s.sub_contract)
              flags := CallFlags.default
              payload := [0xC0, 0xDE, 0xCA, 0xFE] ++ encode_i32 5 }]) ∧
    s.get inv =
      ((), [{ target := s.acc_contract
              flags := CallFlags.default
              payload := [0xC0, 0xDE, 0xCA, 0xF1] }]) := by
  refine ⟨rfl, ?_, rfl⟩
  obtain ⟨w, a1, b1, c1⟩ := s
  cases w <;> rfl

/-- Witness for C2 at concrete addresses with the always-failing invoker. -/
theorem remote_failure_not_propagated_witness :
    (Adder.new 1).inc 5 alwaysFail =
      (Adder.new 1, [{ target := 1
                       flags := CallFlags.default
                       payload := [0xC0, 0xDE, 0xCA, 0xFE] ++ encode_i32 5 }]) ∧
    (Delegator.new 1 2 3).change 5 alwaysFail =
      ((), [{ target := 2
              flags := CallFlags.default
              payload := [0xC0, 0xDE, 0xCA, 0xFE] ++ encode_i32 5 }]) ∧
    (Delegator.new 1 2 3).get alwaysFail =
      ((), [{ target := 1
              flags := CallFlags.default
              payload := [0xC0, 0xDE, 0xCA, 0xF1] }]) :=
  remote_failure_not_propagated (Adder.new 1) (Delegator.new 1 2 3) alwaysFail
    (fun _ => ⟨RemoteCallError.err, rfl⟩)

/-- Claim C3: `Delegator::new` stores exactly the three given addresses and
sets `which` to `Adder`. -/
theorem new_stores_addresses_and_selects_adder (acc add sub : AccountId) :
    Delegator.new acc add sub =
      { which := Which.Adder
        acc_contract := acc
        add_contract := add
        sub_contract := sub } := rfl

/-- Claim C4: `switch` toggles `which` between `Adder` and `Subber`, leaves
the three addresses unchanged, and performs no remote call (its dispatch list
is empty); it is a total local state transition. -/
theorem switch_local_toggle (s : Delegator) :
    s.switch =
      ({ s with which := (match s.which with
                          | Which.Adder => Which.Subber
                          | Which.Subber => Which.Adder) }, []) := by
  obtain ⟨w, a, b, c⟩ := s
  cases w <;> rfl

/-- Claim C5: applying `switch` twice restores the whole storage, in
particular the `which` field; `switch` is an involution. -/
theorem switch_involution (s : Delegator) :
    ((s.switch).1.switch).1 = s := by
  obtain ⟨w, a, b, c⟩ := s
  cases w <;> rfl

/-- Claim C6: for every `i32` argument, `Adder::inc` emits exactly one
dispatch, targeted at the stored accumulator address, whose payload starts
with the four bytes of `0xC0DECAFE` and whose remaining bytes are the
canonical little-endian encoding of the argument. -/
theorem inc_payload_encoding (a : Adder) (x : Int) (inv : Invoker)
    (h1 : -2147483648 ≤ x) (h2 : x < 2147483648) :
    (a.inc x inv).2 =
      [{ target := a.acc_contract
         flags := CallFlags.default
         payload := selectorBytes 0xC0DECAFE ++ encode_i32 x }] ∧
    (selectorBytes 0xC0DECAFE ++ encode_i32 x).take 4 = [0xC0, 0xDE, 0xCA, 0xFE] ∧
    (selectorBytes 0xC0DECAFE ++ encode_i32 x).drop 4 = encode_i32 x :=
  ⟨rfl, rfl, rfl⟩

/-- Witness for C6 at `by = i32::MIN`, with target and bytes fully evaluated. -/
theorem inc_payload_encoding_witness :
    ((Adder.new 7).inc (-2147483648) alwaysFail).2 =
      [{ target := 7
         flags := CallFlags.default
         payload := [0xC0, 0xDE, 0xCA, 0xFE, 0, 0, 0, 128] }] :=
  ((inc_payload_encoding (Adder.new 7) (-2147483648) alwaysFail (by decide)
      (by decide)).1).trans (by decide)

/-- Claim C7: `get` dispatches exactly one call, to the stored accumulator
address, whose payload is exactly the four selector bytes `0xC0DECAF1` with no
argument bytes, and returns no value (`Unit`) to its own caller. -/
theorem get_dispatch (s : Delegator) (inv : Invoker) :
    s.get inv =
      ((), [{ target := s.acc_contract
              flags := CallFlags.default
              payload := [0xC0, 0xDE, 0xCA, 0xF1] }]) := rfl

/-- Claim C8: over any sequence of `get`, `change` and `switch` messages the
three stored addresses never change; `get` and `change` leave the whole
storage unchanged; and over any switch-free sequence the `which` field never
changes, so only `switch` mutates it. -/
theorem delegator_frame (s : Delegator) (ops quiet : List Op) (x : Int) (inv : Invoker)
    (hq : Op.switch ∉ quiet) :
    ((s.run ops inv).acc_contract = s.acc_contract ∧
     (s.run ops inv).add_contract = s.add_contract ∧
     (s.run ops inv).sub_contract = s.sub_contract) ∧
    (s.step Op.get inv).1 = s ∧
    (s.step (Op.change x) inv).1 = s ∧
    (s.run quiet inv).which = s.which :=
  ⟨run_preserves_addresses s ops inv, rfl, rfl, run_which_no_switch s quiet inv hq⟩

/-- Witness for C8 on a concrete run with and without `switch` messages. -/
theorem delegator_frame_witness :
    (((Delegator.new 1 2 3).run [Op.change 5, Op.switch, Op.get, Op.switch] alwaysFail).acc_contract = 1 ∧
     ((Delegator.new 1 2 3).run [Op.change 5, Op.switch, Op.get, Op.switch] alwaysFail).add_contract = 2 ∧
     ((Delegator.new 1 2 3).run [Op.change 5, Op.switch, Op.get, Op.switch] alwaysFail).sub_contract = 3) ∧
    ((Delegator.new 1 2 3).step Op.get alwaysFail).1 = Delegator.new 1 2 3 ∧
    ((Delegator.new 1 2 3).step (Op.change 5) alwaysFail).1 = Delegator.new 1 2 3 ∧
    ((Delegator.new 1 2 3).run [Op.get, Op.change 7] alwaysFail).which = Which.Adder :=
  delegator_frame (Delegator.new 1 2 3) [Op.change 5, Op.switch, Op.get, Op.switch]
    [Op.get, Op.change 7] 5 alwaysFail (by decide)

/-- Claim C9: `Adder::inc` leaves the stored accumulator address unchanged and
returns no value; its only effect is the single unconfirmed remote dispatch. -/
theorem inc_frame (a : Adder) (x : Int) (inv : Invoker) :
    (a.inc x inv).1 = a ∧
    (a.inc x inv).2 =
      [{ target := a.acc_contract
         flags := CallFlags.default
         payload := [0xC0, 0xDE, 0xCA, 0xFE] ++ encode_i32 x }] :=
  ⟨rfl, rfl⟩

/-- Claim C10: the selector bytes placed by `Delegator::change` at the head of
its payload equal the declared selector of `Adder::inc` (`0xC0DECAFE`), so in
state `Adder` the dispatched payload, when delivered to an `Adder` instance,
resolves to exactly `Adder::inc` with the original argument. -/
theorem change_selector_invokes_inc (s : Delegator) (a : Adder) (x : Int)
    (inv inv2 : Invoker) (d : Dispatch)
    (hw : s.which = Which.Adder)
    (h1 : -2147483648 ≤ x) (h2 : x < 2147483648)
    (hd : d ∈ (s.change x inv).2) :
    d.payload.take 4 = selectorBytes Adder.inc_selector ∧
    d.target = s.add_contract ∧
    a.handleCall d.payload inv2 = some (a.inc x inv2) := by
  have hc : (s.change x inv).2 =
      [{ target := s.add_contract
         flags := CallFlags.default
         payload := [0xC0, 0xDE, 0xCA, 0xFE] ++ encode_i32 x }] := by
    obtain ⟨w, a1, b1, c1⟩ := s
    cases w with
    | Adder => rfl
    | Subber => exact absurd hw (by simp)
  rw [hc, List.mem_singleton] at hd
  subst hd
  have ht : (([0xC0, 0xDE, 0xCA, 0xFE] ++ encode_i32 x).take 4 :
      List Nat) = selectorBytes Adder.inc_selector := rfl
  have hdr : (([0xC0, 0xDE, 0xCA, 0xFE] ++ encode_i32 x).drop 4 :
      List Nat) = encode_i32 x := rfl
  refine ⟨ht, rfl, ?_⟩
  simp only [Adder.handleCall, ht, if_true, hdr, decode_encode_i32 x h1 h2]

/-- Witness for C10 at concrete addresses and argument `5`. -/
theorem change_selector_invokes_inc_witness :
    ({ target := 2
       flags := CallFlags.default
       payload := [0xC0, 0xDE, 0xCA, 0xFE] ++ encode_i32 5 } : Dispatch).payload.take 4 =
      selectorBytes Adder.inc_selector ∧
    ({ target := 2
       flags := CallFlags.default
       payload := [0xC0, 0xDE, 0xCA, 0xFE] ++ encode_i32 5 } : Dispatch).target =
      (Delegator.new 1 2 3).add_contract ∧
    (Adder.new 9).handleCall
        ({ target := 2
           flags := CallFlags.default
           payload := [0xC0, 0xDE, 0xCA, 0xFE] ++ encode_i32 5 } : Dispatch).payload
        alwaysFail =
      some ((Adder.new 9).inc 5 alwaysFail) :=
  change_selector_invokes_inc (Delegator.new 1 2 3) (Adder.new 9) 5 alwaysFail alwaysFail
    { target := 2
      flags := CallFlags.default
      payload := [0xC0, 0xDE, 0xCA, 0xFE] ++ encode_i32 5 }
    rfl (by decide) (by decide) (by decide)

end Ink
